import Mathlib

/-!
Verification of the BLE scanner/selector firmware (`src/main.cpp`) against its
natural-language specification.

The C++ source is shallowly embedded: raw attribute values (`std::string`) are
`List Nat` of byte values, `String` display values are Lean `String`s, the
`std::map` device registry is a key-sorted association list, and the global
session flags/pointers are fields of an explicit state record.  `double`
arithmetic (`val * pow(10, exponent)` followed by rendering with two decimal
places) is idealised as exact rational arithmetic; this is exact on all values
appearing in the statements below.  All functions are total, so an embedded
decoder by construction never reads past the end of its input list.
-/

namespace BleScanner

/-- Unit mapping for the CPF descriptor (`unitMap` in `main.cpp`):
unit UUID to unit string. -/
def unitMap : List (Nat × String) :=
  [(0x2700, ""), (0x2763, "km/h"), (0x27AD, "rpm"), (0x2701, "m"),
   (0x27B1, "°C"), (0x27B3, "%"), (0x27AE, "V"), (0x27AC, "A")]

/-- Unit resolution `(unitMap.find(unitUUID) != unitMap.end()) ? unitMap[unitUUID] : ""`. -/
def lookupUnit (unitUUID : Nat) : String :=
  (List.lookup unitUUID unitMap).getD ""

/-- Little-endian value of a byte list (first byte least significant); models
`reinterpret_cast<const uintN_t*>(rawValue.data())` on the little-endian
ESP32 target. -/
def leVal : List Nat → Nat
  | [] => 0
  | b :: t => b + 256 * leVal t

/-- The two-complement reading of a `w`-bit little-endian value, for the
`int16_t`/`int32_t` casts. -/
def toSigned (w : Nat) (v : Nat) : Int :=
  if v < 2 ^ (w - 1) then (v : Int) else (v : Int) - 2 ^ w

/-- Rendering of the exact fraction `n / d` (`d ≠ 0`) with exactly two
fractional digits, the effect of Arduino `String(value, 2)` (`dtostrf`):
sign, integer part, `.`, two digits.  `(200 * |n| + d) / (2 * d)` is
`⌊|n| / d * 100 + 1 / 2⌋`, i.e. round half away from zero on the absolute
value (`double` rounding idealised as exact arithmetic). -/
def renderFrac2 (n : Int) (d : Nat) : String :=
  let m : Nat := (200 * n.natAbs + d) / (2 * d)
  (if n < 0 then "-" else "") ++ toString (m / 100) ++ "." ++
    (if m % 100 < 10 then "0" else "") ++ toString (m % 100)

/-- Embedding of `String(val * pow(10, exponent), 2)`: the exact value `v * 10^exponent`
(as the fraction `v * 10^max(e,0) / 10^max(-e,0)`) rendered with two
fractional digits. -/
def renderScaled (v : Int) (exponent : Int) : String :=
  renderFrac2 (v * ((10 : Nat) ^ exponent.toNat : Nat)) ((10 : Nat) ^ (-exponent).toNat)

/-- Rendering of the format-`0x0E` branch (`float` reinterpret of the first
four bytes, scaled by `10^exponent`): non-finite bit patterns print as
infinity/NaN text; a finite pattern with sign `sgn`, biased exponent `e`
and mantissa `f` has exact value `±(2^23 + f) * 2^(e-150)` (or
`±f * 2^-149` subnormal), rendered like the integer branches. -/
def renderFloat32 (bits : Nat) (exponent : Int) : String :=
  let sgn : Nat := bits / 2 ^ 31 % 2
  let e : Nat := bits / 2 ^ 23 % 256
  let f : Nat := bits % 2 ^ 23
  if e = 255 then
    (if f = 0 then (if sgn = 1 then "-inf" else "inf") else "nan")
  else
    let mag : Nat := if e = 0 then f else (2 ^ 23 + f) * 2 ^ (e - 150)
    let den : Nat := if e = 0 then 2 ^ 149 else 2 ^ (150 - e)
    renderFrac2 ((if sgn = 1 then -(mag : Int) else (mag : Int)) * ((10 : Nat) ^ exponent.toNat : Nat))
      (den * (10 : Nat) ^ (-exponent).toNat)

/-- Embedding of `convertRawValue(rawValue, format, exponent, unitUUID)`:
the CPF-driven decoder.  The `switch` on the format code becomes an
if-chain; each numeric branch first checks the length guard
(`if (rawValue.size() < n) break;`, yielding `""`), then reads the first
`n` bytes little-endian, scales by `10^exponent` and renders with two
fractional digits plus the resolved unit. -/
def convertRawValue (rawValue : List Nat) (format : Nat) (exponent : Int) (unitUUID : Nat) : String :=
  let unit := lookupUnit unitUUID
  if format = 0x01 then
    match rawValue with
    | [] => "false"
    | b :: _ => if b ≠ 0 then "true" else "false"
  else if format = 0x04 then
    if rawValue.length < 4 then "" else
      renderScaled (leVal (rawValue.take 4) : Int) exponent ++ unit
  else if format = 0x06 then
    if rawValue.length < 2 then "" else
      renderScaled (leVal (rawValue.take 2) : Int) exponent ++ unit
  else if format = 0x08 then
    if rawValue.length < 4 then "" else
      renderScaled (toSigned 32 (leVal (rawValue.take 4))) exponent ++ unit
  else if format = 0x0A then
    if rawValue.length < 2 then "" else
      renderScaled (toSigned 16 (leVal (rawValue.take 2))) exponent ++ unit
  else if format = 0x0E then
    if rawValue.length < 4 then "" else
      renderFloat32 (leVal (rawValue.take 4)) exponent ++ unit
  else ""

/-- Embedding of `fallbackConvert(rawValue)`: empty input yields `""`;
all-printable input is reproduced as text; otherwise each byte is printed
as its decimal value followed by a space. -/
def fallbackConvert (rawValue : List Nat) : String :=
  if rawValue = [] then ""
  else if rawValue.all (fun c => 32 ≤ c && c ≤ 126) then
    String.mk (rawValue.map Char.ofNat)
  else
    rawValue.foldl (fun out c => out ++ toString c ++ " ") ""

/-! ## Device registry

`foundDevices` is a `std::map<std::string, std::pair<BLEAdvertisedDevice*, int>>`
keyed by address.  Only the signal strength is semantically relevant (the
stored pointer is a copy of the advertisement for the same address), so the
registry is embedded as an association list of `(address, rssi)` pairs kept
strictly sorted by key, mirroring `std::map` ordering and uniqueness. -/

/-- A scan result delivered to `MyAdvertisedDeviceCallbacks::onResult`. -/
structure Advertisement where
  hasName : Bool
  name : String
  address : String
  rssi : Int
deriving DecidableEq, Repr

/-- The constant `TARGET_DEVICE_PREFIX` in `main.cpp`. -/
def TARGET_DEVICE_PREFIX_VAL : String := "Skp"

/-- Keyed insertion `foundDevices[address] = ...` of `std::map`: replaces the
entry with an equal key, otherwise inserts at the key-ordered position. -/
def mapInsert : List (String × Int) → String → Int → List (String × Int)
  | [], a, r => [(a, r)]
  | (k, v) :: t, a, r =>
    if a = k then (a, r) :: t
    else if a < k then (a, r) :: (k, v) :: t
    else (k, v) :: mapInsert t a r

/-- The `std::map` representation invariant: keys strictly increasing. -/
def SortedKeys (reg : List (String × Int)) : Prop :=
  reg.Pairwise (fun p q => p.1 < q.1)

/-- The admission test `name.find(TARGET_DEVICE_PREFIX) == 0`: the name starts with the target
prefix (stated over the character lists). -/
def startsWithTarget (name : String) : Bool :=
  TARGET_DEVICE_PREFIX_VAL.data.isPrefixOf name.data

/-- Embedding of `MyAdvertisedDeviceCallbacks::onResult`: the advertisement is
admitted only if it carries a name and `name.find(TARGET_DEVICE_PREFIX) == 0`
(the name starts with the prefix); it then overwrites the entry for its
address with the latest signal strength. -/
def onResult (reg : List (String × Int)) (adv : Advertisement) : List (String × Int) :=
  if adv.hasName && startsWithTarget adv.name then
    mapInsert reg adv.address adv.rssi
  else reg

/-! ## Session controller state

The file-scope globals of `main.cpp` gathered into one record.  `pClient` is
the owning client pointer; only its connection flag matters to the claims.
The target device pointer is represented by the address it was copied from.
`scanActive` records that `pBLEScan->start` has been issued (the `Scanning`
state); `waitingForUserInput` is the `AwaitingSelection` state. -/

/-- The `BLEClient` object held by `pClient` (observable connection flag). -/
structure ClientObj where
  connected : Bool
deriving DecidableEq, Repr

/-- The file-scope mutable state of `main.cpp`. -/
structure SysState where
  foundDevices : List (String × Int)
  sortedDevices : List (String × Int)
  targetDevice : Option String
  deviceFound : Bool
  isConnected : Bool
  scanCompleted : Bool
  waitingForUserInput : Bool
  scanActive : Bool
  pClient : Option ClientObj
deriving DecidableEq, Repr

/-- Embedding of `startScan()`: clears the stored devices of the previous
round, resets the round flags and starts a new scan.  (The asynchronous
scan-completion callback is a separate event and not part of this step.) -/
def startScanState (s : SysState) : SysState :=
  { s with foundDevices := [], scanCompleted := false,
           waitingForUserInput := false, scanActive := true }

/-- Embedding of `connectToDevice()` for one attempt.  The outcomes of the two
external calls are parameters: `connectOk` for `pClient->connect(targetDevice)`
and `servicesOk` for `pClient->getServices()`.  Any prior client is torn down
(disconnect + delete) and replaced by the freshly created client, whose
connection flag is the connect outcome (`onConnect` sets `isConnected` on
success).  On either failure the function returns `false` *without* deleting
or clearing `pClient`. -/
def connectToDevice (s : SysState) (connectOk servicesOk : Bool) : Bool × SysState :=
  match s.targetDevice with
  | none => (false, s)
  | some _ =>
    let s1 : SysState :=
      { s with pClient := some { connected := connectOk },
               isConnected := connectOk || s.isConnected }
    if connectOk then
      if servicesOk then (true, s1) else (false, s1)
    else (false, s1)

/-- Whitespace set of `isspace`, used by Arduino `String::trim`. -/
def isSpaceChar (c : Char) : Bool :=
  c = ' ' || c = '\t' || c = '\n' || c = '\x0b' || c = '\x0c' || c = '\r'

/-- Arduino `String::trim()`: strip `isspace` characters from both ends. -/
def arduinoTrim (s : String) : String :=
  String.mk (((s.data.dropWhile isSpaceChar).reverse.dropWhile isSpaceChar).reverse)

/-- Value of the maximal leading decimal-digit run (`0` if there is none). -/
def digitsVal : List Char → Nat → Nat
  | c :: cs, acc => if c.isDigit then digitsVal cs (acc * 10 + (c.toNat - 48)) else acc
  | [], acc => acc

/-- Behaviour of `atol` on a trimmed character list (Arduino `String::toInt`): optional
single sign, then the maximal run of leading digits; no digits yields `0`. -/
def atolVal : List Char → Int
  | [] => 0
  | c :: rest =>
    if c = '-' then -(digitsVal rest 0 : Int)
    else if c = '+' then (digitsVal rest 0 : Int)
    else (digitsVal (c :: rest) 0 : Int)

/-- Behaviour of `atol` on a trimmed string. -/
def atolModel (s : String) : Int :=
  atolVal s.data

/-- Clamping by `strtol` to the 32-bit `long` range of the target. -/
def clampLong (v : Int) : Int :=
  if v > 2147483647 then 2147483647 else if v < -2147483648 then -2147483648 else v

/-- Parsing step `input.trim(); int selection = input.toInt();` of `processUserSelection`. -/
def selectionParse (input : String) : Int :=
  clampLong (atolModel (arduinoTrim input))

/-- Whether a character list begins with a decimal numeral (an optional
single sign followed by a digit): exactly the inputs `atol` can parse to a
possibly nonzero value. -/
def startsWithNumeralL : List Char → Bool
  | [] => false
  | c :: rest =>
    if c = '-' ∨ c = '+' then
      match rest with
      | [] => false
      | d :: _ => d.isDigit
    else c.isDigit

/-- Whether the trimmed line begins with a decimal numeral. -/
def startsWithNumeral (s : String) : Bool :=
  startsWithNumeralL s.data

/-- Lines 322–328 of `main.cpp`: a validated selection binds the address of
the chosen entry of the sorted snapshot as the target device and leaves the
`AwaitingSelection` state. -/
def bindSelection (s : SysState) (sel : Int) : SysState :=
  { s with targetDevice := some (s.sortedDevices.getD (sel.toNat - 1) ("", 0)).1,
           deviceFound := true, waitingForUserInput := false }

/-- Embedding of `processUserSelection()`.  `avail` is `Serial.available()`,
`input` the line read; `connectOk`/`servicesOk` parameterise the external
outcomes inside `connectToDevice`.  An out-of-range parsed selection only
prints a re-prompt (no state change); a valid one binds the target and
attempts the connection, and on failure deletes the target device, leaves
`pClient` untouched and restarts scanning. -/
def processUserSelection (s : SysState) (avail : Bool) (input : String)
    (connectOk servicesOk : Bool) : SysState :=
  if avail then
    let sel := selectionParse input
    if 0 < sel ∧ sel ≤ (s.sortedDevices.length : Int) then
      let s1 := bindSelection s sel
      let r := connectToDevice s1 connectOk servicesOk
      if r.1 then r.2
      else startScanState { r.2 with targetDevice := none }
    else s
  else s

/-- A concrete state in the `AwaitingSelection` phase (scan finished with two
discovered devices, snapshot computed, `waitingForUserInput` set), used to
instantiate the selection claims on explicit inputs. -/
def demoState : SysState :=
  { foundDevices := [("aa:01", -40), ("bb:02", -70)],
    sortedDevices := [("aa:01", -40), ("bb:02", -70)],
    targetDevice := none, deviceFound := false, isConnected := false,
    scanCompleted := true, waitingForUserInput := true, scanActive := false,
    pClient := none }

/-! ## Control unlock writer -/

/-- The control-register characteristic as seen by the writer. -/
structure GattChar where
  canWrite : Bool
deriving DecidableEq, Repr

/-- The control service as seen by the writer. -/
structure GattService where
  controlReg : Option GattChar
deriving DecidableEq, Repr

/-- The GATT view of the client session used by `writeControlRegister`:
connection flag, and the result of looking up the control service and,
below it, the control-register characteristic. -/
structure GattClient where
  connected : Bool
  controlService : Option GattService
deriving DecidableEq, Repr

/-- Embedding of `writeControlRegister()`.  Returns the boolean result
together with the list of `(payload, withResponse)` writes issued to the
characteristic. -/
def writeControlRegister (pc : Option GattClient) : Bool × List (List Nat × Bool) :=
  match pc with
  | none => (false, [])
  | some c =>
    if !c.connected then (false, [])
    else
      match c.controlService with
      | none => (false, [])
      | some svc =>
        match svc.controlReg with
        | none => (false, [])
        | some ch =>
          if ch.canWrite then (true, [([0x33, 0x74, 0x12, 0xE4], true)])
          else (false, [])

/-- The success precondition of `writeControlRegister`: a live connected
client whose control service and writable control-register characteristic
are both present. -/
def canUnlock (pc : Option GattClient) : Prop :=
  ∃ c svc ch, pc = some c ∧ c.connected = true ∧ c.controlService = some svc ∧
    svc.controlReg = some ch ∧ ch.canWrite = true

/-! ## Helper lemmas -/

theorem twoDigits_length : ∀ k, k < 100 → ((if k < 10 then "0" else "") ++ toString k).length = 2 := by
  decide

theorem renderFrac2_shape (n : Int) (d : Nat) :
    ∃ a b, renderFrac2 n d = a ++ "." ++ b ∧ b.length = 2 := by
  refine ⟨(if n < 0 then "-" else "") ++ toString ((200 * n.natAbs + d) / (2 * d) / 100),
    (if (200 * n.natAbs + d) / (2 * d) % 100 < 10 then "0" else "") ++
      toString ((200 * n.natAbs + d) / (2 * d) % 100), ?_, ?_⟩
  · simp [renderFrac2, String.append_assoc]
  · exact twoDigits_length _ (Nat.mod_lt _ (by norm_num))

theorem foldl_decimal_render (l : List Nat) (s : String) :
    l.foldl (fun out c => out ++ toString c ++ " ") s =
      s ++ (l.map fun c => toString c ++ " ").foldr (· ++ ·) "" := by
  induction l generalizing s with
  | nil => simp
  | cons c t ih =>
    rw [List.foldl_cons, ih]
    simp [String.append_assoc]

/-! ## Claims about the attribute value decoder -/

/-- C1: for every input byte string and format code, if the format code is
one of `{0x04, 0x08, 0x0E}` and the input is shorter than 4 bytes, or one of
`{0x06, 0x0A}` and the input is shorter than 2 bytes, or the format code is
outside the supported set `{0x01, 0x04, 0x06, 0x08, 0x0A, 0x0E}`, then
`convertRawValue` returns the empty string.  (The embedding is a total
function over the byte list, so no byte beyond the input length is ever
read.) -/
theorem convertRawValue_insufficient_empty (rawValue : List Nat) (format : Nat)
    (exponent : Int) (unitUUID : Nat)
    (h : ((format = 0x04 ∨ format = 0x08 ∨ format = 0x0E) ∧ rawValue.length < 4) ∨
         ((format = 0x06 ∨ format = 0x0A) ∧ rawValue.length < 2) ∨
         (format ≠ 0x01 ∧ format ≠ 0x04 ∧ format ≠ 0x06 ∧ format ≠ 0x08 ∧
          format ≠ 0x0A ∧ format ≠ 0x0E)) :
    convertRawValue rawValue format exponent unitUUID = "" := by
  rcases h with ⟨hf, hl⟩ | ⟨hf, hl⟩ | ⟨h1, h4, h6, h8, hA, hE⟩
  · rcases hf with rfl | rfl | rfl <;> simp [convertRawValue, hl]
  · rcases hf with rfl | rfl <;> simp [convertRawValue, hl]
  · simp [convertRawValue, h1, h4, h6, h8, hA, hE]

theorem convertRawValue_insufficient_empty_case :
    convertRawValue [1, 2, 3] 0x04 0 0x2700 = "" :=
  convertRawValue_insufficient_empty [1, 2, 3] 0x04 0 0x2700
    (Or.inl ⟨Or.inl rfl, by decide⟩)

/-- C4: for inputs of sufficient width, format codes `0x06` (uint16), `0x04`
(uint32), `0x0A` (int16) and `0x08` (int32) decode the leading bytes as a
little-endian fixed-width integer of the corresponding signedness, scale by
`10^exponent`, render with exactly two fractional digits and append the
resolved unit symbol; in particular
`decode([0x64,0x00], 0x06, -1, 0x27B1) = "10.00°C"`. -/
theorem convertRawValue_integer_formats :
    (∀ b0 b1 rest exponent unitUUID,
      convertRawValue (b0 :: b1 :: rest) 0x06 exponent unitUUID =
        renderScaled ((b0 + 256 * b1 : Nat) : Int) exponent ++ lookupUnit unitUUID) ∧
    (∀ b0 b1 b2 b3 rest exponent unitUUID,
      convertRawValue (b0 :: b1 :: b2 :: b3 :: rest) 0x04 exponent unitUUID =
        renderScaled ((b0 + 256 * b1 + 65536 * b2 + 16777216 * b3 : Nat) : Int) exponent ++
          lookupUnit unitUUID) ∧
    (∀ b0 b1 rest exponent unitUUID,
      convertRawValue (b0 :: b1 :: rest) 0x0A exponent unitUUID =
        renderScaled (if b0 + 256 * b1 < 32768 then ((b0 + 256 * b1 : Nat) : Int)
          else ((b0 + 256 * b1 : Nat) : Int) - 65536) exponent ++ lookupUnit unitUUID) ∧
    (∀ b0 b1 b2 b3 rest exponent unitUUID,
      convertRawValue (b0 :: b1 :: b2 :: b3 :: rest) 0x08 exponent unitUUID =
        renderScaled (if b0 + 256 * b1 + 65536 * b2 + 16777216 * b3 < 2147483648 then
            ((b0 + 256 * b1 + 65536 * b2 + 16777216 * b3 : Nat) : Int)
          else ((b0 + 256 * b1 + 65536 * b2 + 16777216 * b3 : Nat) : Int) - 4294967296)
          exponent ++ lookupUnit unitUUID) ∧
    (∀ v exponent, ∃ a b, renderScaled v exponent = a ++ "." ++ b ∧ b.length = 2) ∧
    convertRawValue [0x64, 0x00] 0x06 (-1) 0x27B1 = "10.00°C" := by
  refine ⟨?_, ?_, ?_, ?_, fun v e => renderFrac2_shape _ _, by decide⟩
  · intro b0 b1 rest e u
    simp [convertRawValue, leVal]
  · intro b0 b1 b2 b3 rest e u
    have hv : b0 + 256 * (b1 + 256 * (b2 + 256 * b3)) =
        b0 + 256 * b1 + 65536 * b2 + 16777216 * b3 := by ring
    simp [convertRawValue, leVal, hv]
  · intro b0 b1 rest e u
    norm_num [convertRawValue, leVal, toSigned]
  · intro b0 b1 b2 b3 rest e u
    have hv : b0 + 256 * (b1 + 256 * (b2 + 256 * b3)) =
        b0 + 256 * b1 + 65536 * b2 + 16777216 * b3 := by ring
    norm_num [convertRawValue, leVal, toSigned, hv]

/-- C5: format code `0x01` (boolean) ignores exponent and unit code and
returns `"false"` on empty input, `"true"` when the first byte is non-zero
and `"false"` when it is zero; in particular
`decode([0x01], 0x01, 0, 0x2700) = "true"`. -/
theorem convertRawValue_boolean :
    (∀ exponent unitUUID, convertRawValue [] 0x01 exponent unitUUID = "false") ∧
    (∀ b t exponent unitUUID, b ≠ 0 →
      convertRawValue (b :: t) 0x01 exponent unitUUID = "true") ∧
    (∀ t exponent unitUUID, convertRawValue (0 :: t) 0x01 exponent unitUUID = "false") ∧
    convertRawValue [0x01] 0x01 0 0x2700 = "true" := by
  refine ⟨fun e u => rfl, ?_, fun t e u => rfl, by decide⟩
  intro b t e u hb
  simp [convertRawValue, hb]

theorem convertRawValue_boolean_case :
    convertRawValue [7] 0x01 5 0x9999 = "true" :=
  convertRawValue_boolean.2.1 7 [] 5 0x9999 (by decide)

/-- C6: `fallbackConvert` returns `""` on empty input, reproduces the bytes
as text when all of them are printable ASCII (in `[32,126]`), and otherwise
renders every byte as its decimal value followed by a space; in particular
`fallbackConvert([0,255,65]) = "0 255 65 "`. -/
theorem fallbackConvert_spec :
    fallbackConvert [] = "" ∧
    (∀ rawValue, rawValue ≠ [] → (∀ b ∈ rawValue, 32 ≤ b ∧ b ≤ 126) →
      fallbackConvert rawValue = String.mk (rawValue.map Char.ofNat)) ∧
    (∀ rawValue, (∃ b ∈ rawValue, b < 32 ∨ 126 < b) →
      fallbackConvert rawValue =
        (rawValue.map fun b => toString b ++ " ").foldr (· ++ ·) "") ∧
    fallbackConvert [0, 255, 65] = "0 255 65 " := by
  refine ⟨rfl, ?_, ?_, by decide⟩
  · intro raw hne hall
    have h : raw.all (fun c => 32 ≤ c && c ≤ 126) = true := by
      simp only [List.all_eq_true, Bool.and_eq_true, decide_eq_true_eq]
      exact hall
    simp [fallbackConvert, hne, h]
  · intro raw hex
    have hne : raw ≠ [] := by
      rintro rfl
      simp at hex
    have h : ¬ raw.all (fun c => 32 ≤ c && c ≤ 126) = true := by
      simp only [List.all_eq_true, Bool.and_eq_true, decide_eq_true_eq]
      intro hall
      obtain ⟨b, hb, hv⟩ := hex
      rcases hall b hb with ⟨h1, h2⟩
      omega
    rw [fallbackConvert, if_neg hne, if_neg h, foldl_decimal_render]
    simp

theorem fallbackConvert_spec_case : fallbackConvert [72, 105] = "Hi" := by
  rw [fallbackConvert_spec.2.1 [72, 105] (by decide) (by decide)]
  decide

/-! ## Claims about the device registry -/

theorem mapInsert_cons_self (t : List (String × Int)) (a : String) (r v : Int) :
    mapInsert ((a, v) :: t) a r = (a, r) :: t := by
  simp [mapInsert]

theorem mapInsert_cons_lt (t : List (String × Int)) (a k : String) (r v : Int)
    (hak : a ≠ k) (halt : a < k) :
    mapInsert ((k, v) :: t) a r = (a, r) :: (k, v) :: t := by
  simp [mapInsert, hak, halt]

theorem mapInsert_cons_gt (t : List (String × Int)) (a k : String) (r v : Int)
    (hak : a ≠ k) (halt : ¬ a < k) :
    mapInsert ((k, v) :: t) a r = (k, v) :: mapInsert t a r := by
  simp [mapInsert, hak, halt]

theorem mem_mapInsert (t : List (String × Int)) (a : String) (r : Int) :
    ∀ p ∈ mapInsert t a r, p.1 = a ∨ p ∈ t := by
  induction t with
  | nil =>
    intro p hp
    simp [mapInsert] at hp
    simp [hp]
  | cons q t ih =>
    rcases q with ⟨k, v⟩
    intro p hp
    by_cases hak : a = k
    · subst hak
      rw [mapInsert_cons_self] at hp
      rcases List.mem_cons.mp hp with rfl | hp2
      · exact Or.inl rfl
      · exact Or.inr (List.mem_cons_of_mem _ hp2)
    · by_cases halt : a < k
      · rw [mapInsert_cons_lt t a k r v hak halt] at hp
        rcases List.mem_cons.mp hp with rfl | hp2
        · exact Or.inl rfl
        · exact Or.inr hp2
      · rw [mapInsert_cons_gt t a k r v hak halt] at hp
        rcases List.mem_cons.mp hp with rfl | hp2
        · exact Or.inr (List.mem_cons_self _ _)
        · rcases ih p hp2 with he | hmem
          · exact Or.inl he
          · exact Or.inr (List.mem_cons_of_mem _ hmem)

theorem sortedKeys_mapInsert {t : List (String × Int)} (h : SortedKeys t) (a : String) (r : Int) :
    SortedKeys (mapInsert t a r) := by
  induction t with
  | nil =>
    simp [mapInsert, SortedKeys]
  | cons q t ih =>
    rcases q with ⟨k, v⟩
    rw [SortedKeys, List.pairwise_cons] at h
    obtain ⟨hk, ht⟩ := h
    by_cases hak : a = k
    · subst hak
      rw [mapInsert_cons_self]
      exact List.pairwise_cons.mpr ⟨hk, ht⟩
    · by_cases halt : a < k
      · rw [mapInsert_cons_lt t a k r v hak halt]
        refine List.pairwise_cons.mpr ⟨?_, List.pairwise_cons.mpr ⟨hk, ht⟩⟩
        intro q hq
        rcases List.mem_cons.mp hq with rfl | hq2
        · exact halt
        · exact lt_trans halt (hk q hq2)
      · have hka : k < a := lt_of_le_of_ne (le_of_not_lt halt) fun he => hak he.symm
        rw [mapInsert_cons_gt t a k r v hak halt]
        refine List.pairwise_cons.mpr ⟨?_, ih ht⟩
        intro q hq
        rcases mem_mapInsert t a r q hq with he | hmem
        · exact he ▸ hka
        · exact hk q hmem

theorem countP_lookup_mapInsert {t : List (String × Int)} (h : SortedKeys t)
    (a : String) (r : Int) :
    (mapInsert t a r).countP (fun p => p.1 == a) = 1 ∧
      List.lookup a (mapInsert t a r) = some r := by
  induction t with
  | nil =>
    constructor
    · simp [mapInsert]
    · simp [mapInsert, List.lookup]
  | cons q t ih =>
    rcases q with ⟨k, v⟩
    rw [SortedKeys, List.pairwise_cons] at h
    obtain ⟨hk, ht⟩ := h
    by_cases hak : a = k
    · subst hak
      rw [mapInsert_cons_self]
      have h0 : t.countP (fun p => p.1 == a) = 0 := by
        rw [List.countP_eq_zero]
        intro p hp
        have hlt := hk p hp
        simp only [beq_iff_eq]
        exact fun he => absurd (he ▸ hlt) (lt_irrefl _)
      constructor
      · rw [List.countP_cons, h0]
        simp
      · simp [List.lookup]
    · by_cases halt : a < k
      · rw [mapInsert_cons_lt t a k r v hak halt]
        have h0 : ((k, v) :: t).countP (fun p => p.1 == a) = 0 := by
          rw [List.countP_eq_zero]
          intro p hp
          rcases List.mem_cons.mp hp with rfl | hp2
          · simp only [beq_iff_eq]
            exact fun he => hak he.symm
          · have hlt := lt_trans halt (hk p hp2)
            simp only [beq_iff_eq]
            exact fun he => absurd (he ▸ hlt) (lt_irrefl _)
        constructor
        · rw [List.countP_cons, h0]
          simp
        · simp [List.lookup]
      · rw [mapInsert_cons_gt t a k r v hak halt]
        obtain ⟨hc, hl⟩ := ih ht
        constructor
        · rw [List.countP_cons, hc]
          have hke : ((k, v).1 == a) = false := by
            simp only [beq_eq_false_iff_ne]
            exact fun he => hak he.symm
          simp [hke]
        · rw [List.lookup, show (a == k) = false from by simp [hak]]
          exact hl

/-- C7: an advertisement whose name does not start with the target prefix
leaves the registry unchanged; two admitted advertisements for the same
address leave exactly one entry for that address, holding the signal
strength of the later one; and the registry clear at scan start empties it
unconditionally. -/
theorem registry_spec :
    (∀ reg adv, startsWithTarget adv.name = false →
      onResult reg adv = reg) ∧
    (∀ reg adv1 adv2, SortedKeys reg → adv1.address = adv2.address →
      adv1.hasName = true → startsWithTarget adv1.name = true →
      adv2.hasName = true → startsWithTarget adv2.name = true →
      (onResult (onResult reg adv1) adv2).countP (fun p => p.1 == adv2.address) = 1 ∧
        List.lookup adv2.address (onResult (onResult reg adv1) adv2) = some adv2.rssi) ∧
    (∀ s, (startScanState s).foundDevices = []) := by
  refine ⟨?_, ?_, fun s => rfl⟩
  · intro reg adv h
    simp [onResult, h]
  · intro reg adv1 adv2 hs haddr h1n h1p h2n h2p
    have hsorted1 : SortedKeys (onResult reg adv1) := by
      rw [onResult, if_pos (by simp [h1n, h1p])]
      exact sortedKeys_mapInsert hs _ _
    rw [onResult, if_pos (by simp [h2n, h2p])]
    exact countP_lookup_mapInsert hsorted1 _ _

theorem registry_spec_case :
    onResult [("bb:01", -10)] ⟨true, "Other", "aa:02", -40⟩ = [("bb:01", -10)] ∧
    ((onResult (onResult [] ⟨true, "SkpA", "aa:02", -40⟩) ⟨true, "SkpA", "aa:02", -70⟩).countP
        (fun p => p.1 == "aa:02") = 1 ∧
      List.lookup "aa:02" (onResult (onResult [] ⟨true, "SkpA", "aa:02", -40⟩)
        ⟨true, "SkpA", "aa:02", -70⟩) = some (-70)) :=
  ⟨registry_spec.1 [("bb:01", -10)] ⟨true, "Other", "aa:02", -40⟩ (by decide),
   registry_spec.2.1 [] ⟨true, "SkpA", "aa:02", -40⟩ ⟨true, "SkpA", "aa:02", -70⟩
     List.Pairwise.nil rfl rfl (by decide) rfl (by decide)⟩

/-! ## Claims about the control unlock writer -/

/-- C9: `writeControlRegister` returns failure and performs no write exactly
when the session is not connected, the control service is absent, the
control-register characteristic is absent, or the characteristic is not
writable; otherwise it performs exactly one write of the payload
`0x33 0x74 0x12 0xE4` (most-significant byte first) with acknowledgement
requested, and returns success. -/
theorem writeControlRegister_spec :
    (∀ pc, (writeControlRegister pc).1 = false ↔ ¬ canUnlock pc) ∧
    (∀ pc, (writeControlRegister pc).1 = false → (writeControlRegister pc).2 = []) ∧
    (∀ pc, canUnlock pc →
      writeControlRegister pc = (true, [([0x33, 0x74, 0x12, 0xE4], true)])) := by
  have hpos : ∀ pc, canUnlock pc →
      writeControlRegister pc = (true, [([0x33, 0x74, 0x12, 0xE4], true)]) := by
    rintro pc ⟨c, svc, ch, rfl, hc, hsvc, hreg, hw⟩
    simp [writeControlRegister, hc, hsvc, hreg, hw]
  have hneg : ∀ pc, ¬ canUnlock pc → writeControlRegister pc = (false, []) := by
    intro pc h
    match pc with
    | none => rfl
    | some ⟨false, cs⟩ => rfl
    | some ⟨true, none⟩ => rfl
    | some ⟨true, some ⟨none⟩⟩ => rfl
    | some ⟨true, some ⟨some ⟨false⟩⟩⟩ => rfl
    | some ⟨true, some ⟨some ⟨true⟩⟩⟩ =>
      exact absurd ⟨_, _, _, rfl, rfl, rfl, rfl, rfl⟩ h
  refine ⟨?_, ?_, hpos⟩
  · intro pc
    constructor
    · intro hf hcu
      rw [hpos pc hcu] at hf
      simp at hf
    · intro hcu
      rw [hneg pc hcu]
  · intro pc hf
    by_cases hcu : canUnlock pc
    · rw [hpos pc hcu] at hf
      simp at hf
    · rw [hneg pc hcu]

theorem writeControlRegister_spec_case :
    writeControlRegister (some ⟨true, some ⟨some ⟨true⟩⟩⟩) =
      (true, [([0x33, 0x74, 0x12, 0xE4], true)]) :=
  writeControlRegister_spec.2.2 _ ⟨_, _, _, rfl, rfl, rfl, rfl, rfl⟩

/-! ## Claims about the session controller -/

theorem atolVal_eq_zero {cs : List Char} (h : startsWithNumeralL cs = false) :
    atolVal cs = 0 := by
  rcases cs with _ | ⟨c, rest⟩
  · rfl
  · by_cases hpm : c = '-' ∨ c = '+'
    · rcases rest with _ | ⟨d, rest2⟩
      · rcases hpm with rfl | rfl <;> simp [atolVal, digitsVal]
      · have hd : d.isDigit = false := by
          simp only [startsWithNumeralL] at h
          rwa [if_pos hpm] at h
        rcases hpm with rfl | rfl <;> simp [atolVal, digitsVal, hd]
    · push_neg at hpm
      have hc : c.isDigit = false := by
        simp only [startsWithNumeralL] at h
        rwa [if_neg (by tauto)] at h
      simp [atolVal, hpm.1, hpm.2, digitsVal, hc]

/-- C8: in the `AwaitingSelection` state, a selection whose parsed index is
`0`, negative, or greater than the snapshot size is rejected without any
state change (the target stays unbound and the state remains
`AwaitingSelection`); an index in `[1, N]` binds exactly the address of the
entry at that position of the sorted snapshot as the target and leaves the
`AwaitingSelection` state. -/
theorem processUserSelection_spec :
    (∀ s input connectOk servicesOk, s.waitingForUserInput = true →
      ¬ (0 < selectionParse input ∧
          selectionParse input ≤ (s.sortedDevices.length : Int)) →
      processUserSelection s true input connectOk servicesOk = s) ∧
    (∀ s input, s.waitingForUserInput = true →
      0 < selectionParse input →
      selectionParse input ≤ (s.sortedDevices.length : Int) →
      (processUserSelection s true input true true).targetDevice =
        some (s.sortedDevices.getD ((selectionParse input).toNat - 1) ("", 0)).1 ∧
      (processUserSelection s true input true true).waitingForUserInput = false) := by
  constructor
  · intro s input cOk sOk _ hinv
    simp [processUserSelection, hinv]
  · intro s input hw hpos hle
    have hc : 0 < selectionParse input ∧
        selectionParse input ≤ (s.sortedDevices.length : Int) := ⟨hpos, hle⟩
    simp [processUserSelection, hc, bindSelection, connectToDevice]

theorem processUserSelection_spec_case :
    processUserSelection demoState true "7" true true = demoState ∧
    (processUserSelection demoState true "1" true true).targetDevice =
      some (demoState.sortedDevices.getD ((selectionParse "1").toNat - 1) ("", 0)).1 ∧
    (processUserSelection demoState true "1" true true).waitingForUserInput = false :=
  ⟨processUserSelection_spec.1 demoState "7" true true rfl (by decide),
   (processUserSelection_spec.2 demoState "1" rfl (by decide) (by decide)).1,
   (processUserSelection_spec.2 demoState "1" rfl (by decide) (by decide)).2⟩

/-- C2 counterexample: in a concrete `AwaitingSelection` state with one
matching device selected, a failing connect attempt does return to
`Scanning` with the target slot emptied, but the connection object created
for the attempt is *not* discarded: `pClient` still holds the (unconnected)
client when `Scanning` is re-entered, contradicting the claim that no live
connection object survives the failed attempt. -/
theorem connectFailure_cex :
    (processUserSelection demoState true "1" false true).scanActive = true ∧
    (processUserSelection demoState true "1" false true).targetDevice = none ∧
    (processUserSelection demoState true "1" false true).pClient = some ⟨false⟩ ∧
    (processUserSelection demoState true "1" false true).pClient ≠ none := by
  decide

/-- C2 (amended): in the `AwaitingSelection` state, a valid selection whose
connect attempt fails always re-enters `Scanning` (scan restarted, registry
cleared, input flag dropped) with the bound target released; however the
client object created for the failed attempt is not discarded — `pClient`
keeps pointing at the unconnected client when `Scanning` is re-entered, and
it is only torn down at the start of the next connect attempt. -/
theorem connectFailure_returns_to_scanning :
    ∀ s input servicesOk, s.waitingForUserInput = true →
      0 < selectionParse input →
      selectionParse input ≤ (s.sortedDevices.length : Int) →
      (processUserSelection s true input false servicesOk).scanActive = true ∧
      (processUserSelection s true input false servicesOk).foundDevices = [] ∧
      (processUserSelection s true input false servicesOk).waitingForUserInput = false ∧
      (processUserSelection s true input false servicesOk).targetDevice = none ∧
      (processUserSelection s true input false servicesOk).pClient = some ⟨false⟩ := by
  intro s input sOk hw hpos hle
  have hc : 0 < selectionParse input ∧
      selectionParse input ≤ (s.sortedDevices.length : Int) := ⟨hpos, hle⟩
  simp [processUserSelection, hc, bindSelection, connectToDevice, startScanState]

theorem connectFailure_returns_to_scanning_case :
    (processUserSelection demoState true "2" false false).scanActive = true ∧
    (processUserSelection demoState true "2" false false).foundDevices = [] ∧
    (processUserSelection demoState true "2" false false).waitingForUserInput = false ∧
    (processUserSelection demoState true "2" false false).targetDevice = none ∧
    (processUserSelection demoState true "2" false false).pClient = some ⟨false⟩ :=
  connectFailure_returns_to_scanning demoState "2" false rfl (by decide) (by decide)

/-- C10 counterexample: the input line `"1x"` is not a decimal number, yet
`toInt`/`atol` parses its numeric prefix as `1`, which is accepted as a
valid selection in a state with one or more devices: the state mutates (the
address of the first device is bound as target and a connect is attempted)
instead of the line being rejected. -/
theorem nonNumericLine_cex :
    (processUserSelection demoState true "1x" true true).targetDevice = some "aa:01" ∧
    processUserSelection demoState true "1x" true true ≠ demoState := by
  decide

/-- C10 (amended): the selection handler parses the trimmed line with
the maximal-numeric-run rule of `atol`.  A line that does not begin with an
optional sign followed by a decimal digit — for example an empty line or
alphabetic text — parses to `0` and is therefore rejected: the state is
unchanged, no target is bound and no connect attempt is made.  (A
non-numeric line with a leading numeric run, such as `"1x"`, instead parses
as the value of that run.) -/
theorem nonNumeralLine_rejected :
    ∀ s input connectOk servicesOk, s.waitingForUserInput = true →
      startsWithNumeral (arduinoTrim input) = false →
      selectionParse input = 0 ∧
      processUserSelection s true input connectOk servicesOk = s := by
  intro s input cOk sOk hw hsn
  have h0 : selectionParse input = 0 := by
    rw [selectionParse, atolModel, atolVal_eq_zero hsn]
    rfl
  refine ⟨h0, ?_⟩
  simp [processUserSelection, h0]

theorem nonNumeralLine_rejected_case :
    selectionParse "hello" = 0 ∧
    processUserSelection demoState true "hello" true true = demoState :=
  nonNumeralLine_rejected demoState "hello" true true rfl (by decide)

end BleScanner
